import Mathlib

/-!
Shallow embedding of the Rutherford scattering simulation
(`src/rutherford_simulation.tsx`) and verification of its specification.

The simulation engine is a per-frame loop over a list of particles.  Every
numeric quantity in the source is a JS number; we model them as real numbers.
Calls to `Math.random()` are modelled as oracle inputs in `[0, 1)`.
-/

open scoped Classical

namespace Rutherford

noncomputable section

/-- Canvas width, `WIDTH = 600` (line 17). -/
def WIDTH : ℝ := 600

/-- Canvas height, `HEIGHT = 400` (line 18). -/
def HEIGHT : ℝ := 400

/-- `NUCLEUS_RADIUS = 5` (line 19). -/
def NUCLEUS_RADIUS : ℝ := 5

/-- `MAX_PARTICLES = 100` (line 21). -/
def MAX_PARTICLES : ℕ := 100

/-- `EMISSION_INTERVAL = 100` ms (line 22). -/
def EMISSION_INTERVAL : ℝ := 100

/-- A particle record, as built by `createParticle` (lines 117-125). -/
structure Particle where
  x : ℝ
  y : ℝ
  vx : ℝ
  vy : ℝ
  impactParameter : ℝ
  hasReachedNucleus : Bool
  path : List (ℝ × ℝ)

/-- The quantity `tanHalfTheta` of line 55:
`(k * Z * alphaCharge) / (2 * energy * Math.abs(impactParameter) * scaleFactor)`
with `k = 1.44`, `alphaCharge = 2` (lines 44-45) and
`scaleFactor = 5000 / (energy * energy)` (line 48). -/
def tanHalfTheta (Z energy b : ℝ) : ℝ :=
  (1.44 * Z * 2) / (2 * energy * |b| * (5000 / (energy * energy)))

/-- `calculateTrajectory` (lines 32-69) on the scalar data it reads:
nuclear charge `Z`, `energy`, the particle's impact parameter `b`, and the
`Math.random()` draw `r` of line 59. -/
def calculateTrajectory (Z energy b r : ℝ) : ℝ :=
  let angleRad : ℝ :=
    if b ≠ 0 then (2 * Real.arctan (tanHalfTheta Z energy b)) * (0.9 + r * 0.2) else 0
  let angleDeg : ℝ := angleRad * (180 / Real.pi)
  if b < 0 then -angleDeg else angleDeg

/-- Histogram bin key of line 81: `Math.floor(Math.abs(angle) / 10) * 10`. -/
def binKey (angle : ℝ) : ℕ :=
  (⌊|angle| / 10⌋).toNat * 10

/-- The histogram object: a partial map from numeric keys to counts.
`none` models a key that is `undefined` on the JS object. -/
abbrev Hist := ℕ → Option ℕ

/-- The histogram produced by the initialisation loop (lines 26-29 and
287-290): key `i` is set to `0` for `i = 0, 10, ..., 170`. -/
def initHist : Hist := fun k => if k < 180 ∧ k % 10 = 0 then some 0 else none

/-- Lines 81-84: increment bin `binKey angle` if that key is defined,
otherwise leave the histogram unchanged. -/
def recordAngle (hist : Hist) (angle : ℝ) : Hist :=
  match hist (binKey angle) with
  | some v => Function.update hist (binKey angle) (some (v + 1))
  | none => hist

/-- The proximity test of lines 72-73:
`sqrt((x - WIDTH/2)² + (y - HEIGHT/2)²) ≤ NUCLEUS_RADIUS * 3`. -/
def nearNucleus (p : Particle) : Prop :=
  Real.sqrt ((p.x - WIDTH / 2) ^ 2 + (p.y - HEIGHT / 2) ^ 2) ≤ NUCLEUS_RADIUS * 3

/-- The three `Math.random()` draws a single particle update may consume:
line 59 (angle factor), line 93 (`vx` perturbation), line 94 (`vy`). -/
structure PRand where
  angleR : ℝ
  vxR : ℝ
  vyR : ℝ

/-- `updateParticlePosition` (lines 71-108).  Returns the updated particle,
the updated histogram, and the keep/remove boolean of line 107. -/
def updateParticlePosition (Z energy : ℝ) (showPaths : Bool) (rnd : PRand)
    (p : Particle) (hist : Hist) : Particle × Hist × Bool :=
  let step1 : Particle × Hist :=
    if p.hasReachedNucleus = false ∧ nearNucleus p then
      let angle := calculateTrajectory Z energy p.impactParameter rnd.angleR
      let hist' := recordAngle hist angle
      let speed := Real.sqrt (p.vx * p.vx + p.vy * p.vy)
      let angleRad := angle * (Real.pi / 180)
      ({ p with hasReachedNucleus := true,
                vx := speed * Real.cos angleRad + (rnd.vxR - 0.5) * 0.2,
                vy := speed * Real.sin angleRad + (rnd.vyR - 0.5) * 0.2 }, hist')
    else (p, hist)
  let p2 : Particle := { step1.1 with x := step1.1.x + step1.1.vx, y := step1.1.y + step1.1.vy }
  let p3 : Particle :=
    if showPaths = true ∧ p2.path.length < 100 then { p2 with path := p2.path ++ [(p2.x, p2.y)] }
    else p2
  (p3, step1.2, if p3.x < 0 ∨ p3.x > WIDTH ∨ p3.y < 0 ∨ p3.y > HEIGHT then false else true)

/-- `createParticle` (lines 110-126); `u` is the `Math.random()` draw of
line 112. -/
def createParticle (u : ℝ) : Particle :=
  let y : ℝ := HEIGHT / 2 + (u - 0.5) * (HEIGHT / 2)
  { x := 0, y := y, vx := 1.5, vy := 0, impactParameter := y - HEIGHT / 2,
    hasReachedNucleus := false, path := [(0, y)] }

/-- The pass `particlesRef.current.filter(updateParticlePosition)` of
line 250: particles are updated in list order, threading the shared
histogram; particle `i` consumes the random draws `rands i`. -/
def advanceFrom (Z energy : ℝ) (showPaths : Bool) (rands : ℕ → PRand) :
    ℕ → List Particle → Hist → List Particle × Hist
  | _, [], hist => ([], hist)
  | i, p :: ps, hist =>
    let u := updateParticlePosition Z energy showPaths (rands i) p hist
    let rest := advanceFrom Z energy showPaths rands (i + 1) ps u.2.1
    (if u.2.2 = true then u.1 :: rest.1 else rest.1, rest.2)

/-- The deflection trigger of lines 72-73 for a particle as it is about to
be updated. -/
def deflectsNow (p : Particle) : Prop :=
  p.hasReachedNucleus = false ∧ nearNucleus p

/-- Ghost instrumentation (not in the source): counts, over one `filter`
pass, how many particles undergo the `hasReachedNucleus` false→true
transition, and how many of those hit a defined histogram key. -/
def advanceCounts (Z energy : ℝ) (showPaths : Bool) (rands : ℕ → PRand) :
    ℕ → List Particle → Hist → ℕ × ℕ
  | _, [], _ => (0, 0)
  | i, p :: ps, hist =>
    let d : ℕ := if deflectsNow p then 1 else 0
    let r : ℕ :=
      if deflectsNow p ∧
          (hist (binKey (calculateTrajectory Z energy p.impactParameter
            (rands i).angleR))).isSome = true then 1 else 0
    let hist' := (updateParticlePosition Z energy showPaths (rands i) p hist).2.1
    let rest := advanceCounts Z energy showPaths rands (i + 1) ps hist'
    (d + rest.1, r + rest.2)

/-- The engine state: React refs and state variables of lines 5-15,
plus two ghost counters (`deflections`, `recorded`) used only to state
invariants; they never feed back into the dynamics. -/
structure SimState where
  running : Bool
  counter : ℕ
  particles : List Particle
  hist : Hist
  startTime : Option ℝ
  deflections : ℕ
  recorded : ℕ

/-- The spawn condition of line 244:
`elapsed > counter * EMISSION_INTERVAL && particles.length < MAX_PARTICLES && running`. -/
def spawnCond (elapsed : ℝ) (s : SimState) : Prop :=
  elapsed > (s.counter : ℝ) * EMISSION_INTERVAL ∧
    s.particles.length < MAX_PARTICLES ∧ s.running = true

/-- Lines 243-247: push one freshly created particle and bump the counter
when the spawn condition holds; otherwise change nothing. -/
def spawnStep (u : ℝ) (elapsed : ℝ) (s : SimState) : List Particle × ℕ :=
  if spawnCond elapsed s then (s.particles ++ [createParticle u], s.counter + 1)
  else (s.particles, s.counter)

/-- All random draws and the `requestAnimationFrame` timestamp one frame
may consume. -/
structure Oracle where
  timestamp : ℝ
  spawnU : ℝ
  rands : ℕ → PRand

/-- Timestamps are nonnegative; every `Math.random()` draw is in `[0, 1)`. -/
def ValidOracle (o : Oracle) : Prop :=
  0 ≤ o.timestamp ∧ 0 ≤ o.spawnU ∧ o.spawnU < 1 ∧
    ∀ i, (0 ≤ (o.rands i).angleR ∧ (o.rands i).angleR < 1) ∧
      (0 ≤ (o.rands i).vxR ∧ (o.rands i).vxR < 1) ∧
      (0 ≤ (o.rands i).vyR ∧ (o.rands i).vyR < 1)

/-- One `animate` frame (lines 236-259): fix the start time if unset,
spawn (lines 243-247), then update/filter all particles (line 250).
Drawing (line 253) does not touch the state and is omitted. -/
def tick (Z energy : ℝ) (showPaths : Bool) (o : Oracle) (s : SimState) : SimState :=
  let start := s.startTime.getD o.timestamp
  let elapsed := o.timestamp - start
  let sp := spawnStep o.spawnU elapsed s
  let adv := advanceFrom Z energy showPaths o.rands 0 sp.1 s.hist
  let cnt := advanceCounts Z energy showPaths o.rands 0 sp.1 s.hist
  { running := s.running, counter := sp.2, particles := adv.1, hist := adv.2,
    startTime := some start,
    deflections := s.deflections + cnt.1, recorded := s.recorded + cnt.2 }

/-- `handleToggleSimulation` (lines 275-281): when starting, clear the
elapsed-time origin; flip `running`. -/
def toggleSim (s : SimState) : SimState :=
  if s.running = false then { s with running := true, startTime := none }
  else { s with running := false }

/-- `handleReset` (lines 283-299): stop, clear particles, rebuild the
18 zeroed bins, clear counter and time origin.  The ghost counters restart
with the store. -/
def resetState (s : SimState) : SimState :=
  { s with running := false, counter := 0, particles := [], hist := initHist,
           startTime := none, deflections := 0, recorded := 0 }

/-- The state after the initial mount (lines 5-15, 25-30). -/
def initState : SimState :=
  { running := false, counter := 0, particles := [], hist := initHist,
    startTime := none, deflections := 0, recorded := 0 }

/-- One observable transition of the component: a Start/Pause click, a
Reset click, or one animation frame (frames only fire while running;
slider values are constrained to their ranges, Z in 1..92, E in 1..10). -/
inductive Step : SimState → SimState → Prop
  | toggle (s : SimState) : Step s (toggleSim s)
  | reset (s : SimState) : Step s (resetState s)
  | tick (s : SimState) (Z energy : ℝ) (showPaths : Bool) (o : Oracle)
      (hZ : 1 ≤ Z ∧ Z ≤ 92) (hE : 1 ≤ energy ∧ energy ≤ 10)
      (ho : ValidOracle o) (hrun : s.running = true) :
      Step s (tick Z energy showPaths o s)

/-- States reachable from the initial mount. -/
inductive Reachable : SimState → Prop
  | init : Reachable initState
  | step {s t : SimState} : Reachable s → Step s t → Reachable t

/-- Sum of the 18 histogram bins `0, 10, ..., 170`. -/
def histSum (h : Hist) : ℕ := ∑ i ∈ Finset.range 18, (h (10 * i)).getD 0

/-- `k` is one of the 18 pre-registered bin keys `0, 10, ..., 170`. -/
def isBinKey (k : ℕ) : Prop := k < 180 ∧ k % 10 = 0

/-- The histogram's defined keys are exactly the 18 registered bin keys. -/
def keysEq (h : Hist) : Prop := ∀ k, (h k).isSome = true ↔ isBinKey k

/-- A concrete frame oracle used to exhibit a run of the engine: spawn draw
`0.500005` (impact parameter `0.001`), angle draw `0.75` (random factor
`1.05`), perturbation draws `0.5` (zero perturbation). -/
def cexOracle (t : ℝ) : Oracle :=
  { timestamp := t, spawnU := 0.500005, rands := fun _ => ⟨0.75, 0.5, 0.5⟩ }

/-- A frame of the concrete run: sliders at `Z = 92`, `E = 10`, paths off. -/
def cexTick (t : ℝ) (s : SimState) : SimState := tick 92 10 false (cexOracle t) s

/-- The single in-flight particle of the concrete run after `n + 1` moves. -/
def cexParticle (n : ℕ) : Particle :=
  { x := 1.5 * ((n : ℝ) + 1), y := 200.001, vx := 1.5, vy := 0,
    impactParameter := 0.001, hasReachedNucleus := false, path := [(0, 200.001)] }

/-- The engine state while the concrete particle is in flight. -/
def cexMid (n : ℕ) : SimState :=
  { running := true, counter := 1, particles := [cexParticle n], hist := initHist,
    startTime := some 0, deflections := 0, recorded := 0 }

/-- The concrete run: start, a first frame at `t = 0` (fixes the time
origin), a frame at `t = 50` (spawns the particle), then one frame every
quarter millisecond. -/
def cexRun : ℕ → SimState
  | 0 => cexTick 50 (cexTick 0 (toggleSim initState))
  | n + 1 => cexTick (50 + ((n : ℝ) + 1) / 4) (cexRun n)

/-- The state of the concrete run just after its particle is deflected. -/
def cexState : SimState := cexRun 191

end

/-! ### Helper lemmas -/

theorem arctan_nonneg {x : ℝ} (hx : 0 ≤ x) : 0 ≤ Real.arctan x := by
  rw [← Real.arctan_zero]
  exact Real.arctan_strictMono.monotone hx

theorem arctan_le_self {x : ℝ} (hx : 0 ≤ x) : Real.arctan x ≤ x := by
  rcases eq_or_lt_of_le hx with h | h
  · rw [← h, Real.arctan_zero]
  · have h1 : 0 < Real.arctan x := by
      rw [← Real.arctan_zero]
      exact Real.arctan_strictMono h
    have h3 := Real.lt_tan h1 (Real.arctan_lt_pi_div_two x)
    rw [Real.tan_arctan] at h3
    exact h3.le

/-- `calculateTrajectory` for a positive impact parameter, in closed form. -/
theorem traj_pos_rep (Z energy b r : ℝ) (hb : 0 < b) :
    calculateTrajectory Z energy b r =
      2 * Real.arctan (tanHalfTheta Z energy b) * (0.9 + r * 0.2) * (180 / Real.pi) := by
  simp only [calculateTrajectory]
  rw [if_pos hb.ne', if_neg (not_lt.mpr hb.le)]

/-! ### C4: zero impact parameter -/

/-- C4: for `impactParameter = 0` the computed deflection angle is exactly
`0` whatever `Z`, `E` and the random draw are; the division of line 55 is
short-circuited by the `b ≠ 0` guard, so no error value arises. -/
theorem c4_zero_impact_angle (Z energy r : ℝ) : calculateTrajectory Z energy 0 r = 0 := by
  simp [calculateTrajectory]

/-! ### C2: the deflection formula -/

/-- C2: for `b ≠ 0`, `calculateTrajectory` returns
`±(2·atan((1.44·Z·2)/(2·E·|b|·(5000/E²)))·(0.9 + 0.2·random)·180/π)`,
negative exactly when `b < 0`, and the random factor lies in `[0.9, 1.1]`. -/
theorem c2_deflection_formula (Z energy b r : ℝ) (hb : b ≠ 0) (hr0 : 0 ≤ r) (hr1 : r < 1) :
    calculateTrajectory Z energy b r =
      (if b < 0 then -1 else 1) *
        (2 * Real.arctan ((1.44 * Z * 2) / (2 * energy * |b| * (5000 / (energy * energy)))) *
          (0.9 + r * 0.2) * (180 / Real.pi)) ∧
    0.9 ≤ 0.9 + r * 0.2 ∧ 0.9 + r * 0.2 ≤ 1.1 := by
  refine ⟨?_, by nlinarith, by nlinarith⟩
  simp only [calculateTrajectory, tanHalfTheta]
  rw [if_pos hb]
  by_cases hneg : b < 0
  · rw [if_pos hneg, if_pos hneg]; ring
  · rw [if_neg hneg, if_neg hneg]; ring

theorem c2_deflection_formula_witness :
    calculateTrajectory 79 5 40 0.5 =
      (if (40 : ℝ) < 0 then -1 else 1) *
        (2 * Real.arctan ((1.44 * 79 * 2) / (2 * 5 * |(40 : ℝ)| * (5000 / (5 * 5)))) *
          (0.9 + 0.5 * 0.2) * (180 / Real.pi)) :=
  (c2_deflection_formula 79 5 40 0.5 (by norm_num) (by norm_num) (by norm_num)).1

/-! ### C1: dependence on the alpha energy -/

/-- C1 is violated by the code: with `Z = 79`, `b = 40` and random draw
`0.5` fixed, raising the energy from `5` to `6` MeV strictly *increases*
the magnitude of the deflection angle.  The `scaleFactor = 5000/E²` of
line 48 sits in the denominator of line 55, so
`tan(θ/2) = 2.88·Z·E/(10000·|b|)` grows with `E`, contradicting the
comment on line 53 and the UI text (lines 396-401). -/
theorem c1_energy_dependence_bug :
    |calculateTrajectory 79 5 40 0.5| < |calculateTrajectory 79 6 40 0.5| := by
  have h40 : (0 : ℝ) < 40 := by norm_num
  have e5 : tanHalfTheta 79 5 40 = 0.002844 := by
    rw [tanHalfTheta, abs_of_pos h40]; norm_num
  have e6 : tanHalfTheta 79 6 40 = 0.0034128 := by
    rw [tanHalfTheta, abs_of_pos h40]; norm_num
  rw [traj_pos_rep 79 5 40 0.5 h40, traj_pos_rep 79 6 40 0.5 h40, e5, e6]
  have hmono : Real.arctan 0.002844 < Real.arctan 0.0034128 :=
    Real.arctan_strictMono (by norm_num)
  have h0 : 0 ≤ Real.arctan 0.002844 := arctan_nonneg (by norm_num)
  have h0' : 0 ≤ Real.arctan 0.0034128 := arctan_nonneg (by norm_num)
  have hpi : 0 < 180 / Real.pi := by positivity
  have hA : 0 ≤ 2 * Real.arctan 0.002844 * (0.9 + 0.5 * 0.2) * (180 / Real.pi) :=
    mul_nonneg (mul_nonneg (mul_nonneg (by norm_num) h0) (by norm_num)) hpi.le
  have hB : 0 ≤ 2 * Real.arctan 0.0034128 * (0.9 + 0.5 * 0.2) * (180 / Real.pi) :=
    mul_nonneg (mul_nonneg (mul_nonneg (by norm_num) h0') (by norm_num)) hpi.le
  rw [abs_of_nonneg hA, abs_of_nonneg hB]
  nlinarith [mul_pos hpi (sub_pos.mpr hmono)]

/-! ### C9: the documented numeric scenario -/

/-- C9 as stated is false: at `Z = 79`, `E = 5`, `b = 40` the computed
`tan(θ/2)` is not `227.52/40000` (the denominator is
`2·5·40·(5000/25) = 80000`, not `40000`). -/
theorem c9_counterexample : tanHalfTheta 79 5 40 ≠ 227.52 / 40000 := by
  rw [tanHalfTheta, abs_of_pos (by norm_num : (0 : ℝ) < 40)]
  norm_num

/-- C9 amended: at `Z = 79`, `E = 5`, `b = 40` the code computes
`tan(θ/2) = 227.52/80000 = 0.002844` (so `θ ≈ 0.33°` before the random
factor), and the recorded histogram bin is `0` for every random draw. -/
theorem c9_scenario (r : ℝ) (hr0 : 0 ≤ r) (hr1 : r < 1) :
    tanHalfTheta 79 5 40 = 227.52 / 80000 ∧
    binKey (calculateTrajectory 79 5 40 r) = 0 := by
  have h40 : (0 : ℝ) < 40 := by norm_num
  have e5 : tanHalfTheta 79 5 40 = 0.002844 := by
    rw [tanHalfTheta, abs_of_pos h40]; norm_num
  refine ⟨by rw [e5]; norm_num, ?_⟩
  rw [traj_pos_rep 79 5 40 r h40, e5]
  have ha0 : 0 ≤ Real.arctan 0.002844 := arctan_nonneg (by norm_num)
  have haub : Real.arctan 0.002844 ≤ 0.002844 := arctan_le_self (by norm_num)
  have hpi : (3.14 : ℝ) < Real.pi := Real.pi_gt_d2
  have hpipos : (0 : ℝ) < Real.pi := Real.pi_pos
  have hfac0 : (0 : ℝ) ≤ 0.9 + r * 0.2 := by nlinarith
  have hfac1 : 0.9 + r * 0.2 ≤ 1.1 := by nlinarith
  have hD0 : 0 ≤ 2 * Real.arctan 0.002844 * (0.9 + r * 0.2) * (180 / Real.pi) :=
    mul_nonneg (mul_nonneg (mul_nonneg (by norm_num) ha0) hfac0) (by positivity)
  have hD10 : 2 * Real.arctan 0.002844 * (0.9 + r * 0.2) * (180 / Real.pi) < 10 := by
    rw [← mul_div_assoc, div_lt_iff₀ hpipos]
    nlinarith [mul_le_mul haub hfac1 hfac0 (by norm_num : (0 : ℝ) ≤ 0.002844)]
  rw [binKey, abs_of_nonneg hD0]
  have hfl : ⌊2 * Real.arctan 0.002844 * (0.9 + r * 0.2) * (180 / Real.pi) / 10⌋ = 0 := by
    rw [Int.floor_eq_zero_iff]
    refine Set.mem_Ico.mpr ⟨by positivity, ?_⟩
    rw [div_lt_one (by norm_num : (0 : ℝ) < 10)]
    exact hD10
  rw [hfl]
  rfl

theorem c9_scenario_witness :
    tanHalfTheta 79 5 40 = 227.52 / 80000 ∧
    binKey (calculateTrajectory 79 5 40 0.5) = 0 :=
  c9_scenario 0.5 (by norm_num) (by norm_num)

/-! ### C5: recording one angle -/

theorem keysEq_initHist : keysEq initHist := by
  intro k
  by_cases h : k < 180 ∧ k % 10 = 0 <;> simp [initHist, isBinKey, h]

theorem binKey_25 : binKey (25 : ℝ) = 20 := by
  rw [binKey, abs_of_nonneg (by norm_num : (0 : ℝ) ≤ 25)]
  have h : ⌊(25 : ℝ) / 10⌋ = 2 := by
    rw [Int.floor_eq_iff]
    norm_num
  rw [h]
  rfl

/-- C5: on a histogram whose defined keys are the 18 registered bins,
`recordAngle` increments exactly the bin `floor(|angle|/10)*10` by one when
that key is registered, and changes nothing at all when it is not. -/
theorem c5_record (hist : Hist) (a : ℝ) (hk : keysEq hist) :
    (isBinKey (binKey a) →
      ∃ v, hist (binKey a) = some v ∧
        recordAngle hist a (binKey a) = some (v + 1) ∧
        ∀ k, k ≠ binKey a → recordAngle hist a k = hist k) ∧
    (¬ isBinKey (binKey a) → recordAngle hist a = hist) := by
  constructor
  · intro hreg
    have hs : (hist (binKey a)).isSome = true := (hk _).2 hreg
    obtain ⟨v, hv⟩ := Option.isSome_iff_exists.mp hs
    refine ⟨v, hv, ?_, fun k hkne => ?_⟩
    · simp only [recordAngle, hv, Function.update_same]
    · simp only [recordAngle, hv]
      exact Function.update_noteq hkne _ _
  · intro hreg
    have hnone : hist (binKey a) = none := by
      rcases h : hist (binKey a) with - | v
      · rfl
      · exact absurd ((hk _).1 (by rw [h]; rfl)) hreg
    simp only [recordAngle, hnone]

theorem c5_record_witness : recordAngle initHist 25 20 = some 1 := by
  obtain ⟨v, hv, hinc, -⟩ :=
    (c5_record initHist 25 keysEq_initHist).1
      (by rw [binKey_25]; exact ⟨by norm_num, by norm_num⟩)
  rw [binKey_25] at hv hinc
  have hv0 : some (0 : ℕ) = some v := by
    rw [← hv]; simp [initHist]
  rw [← Option.some_inj.mp hv0] at hinc
  simpa using hinc

/-! ### C6: velocity changes only at the deflection transition -/

/-- C6: across one `updateParticlePosition` call, an already-deflected
particle keeps its flag and its velocity; an undeflected particle away
from the nucleus keeps its flag and its velocity; exactly at the
false→true transition the velocity is redirected to the scattering angle
and receives the one-time random perturbation. -/
theorem c6_velocity_once (Z energy : ℝ) (sp : Bool) (rnd : PRand) (p : Particle) (hist : Hist) :
    (p.hasReachedNucleus = true →
      (updateParticlePosition Z energy sp rnd p hist).1.hasReachedNucleus = true ∧
      (updateParticlePosition Z energy sp rnd p hist).1.vx = p.vx ∧
      (updateParticlePosition Z energy sp rnd p hist).1.vy = p.vy) ∧
    (p.hasReachedNucleus = false → ¬ nearNucleus p →
      (updateParticlePosition Z energy sp rnd p hist).1.hasReachedNucleus = false ∧
      (updateParticlePosition Z energy sp rnd p hist).1.vx = p.vx ∧
      (updateParticlePosition Z energy sp rnd p hist).1.vy = p.vy) ∧
    (deflectsNow p →
      (updateParticlePosition Z energy sp rnd p hist).1.hasReachedNucleus = true ∧
      (updateParticlePosition Z energy sp rnd p hist).1.vx =
        Real.sqrt (p.vx * p.vx + p.vy * p.vy) *
          Real.cos (calculateTrajectory Z energy p.impactParameter rnd.angleR *
            (Real.pi / 180)) + (rnd.vxR - 0.5) * 0.2 ∧
      (updateParticlePosition Z energy sp rnd p hist).1.vy =
        Real.sqrt (p.vx * p.vx + p.vy * p.vy) *
          Real.sin (calculateTrajectory Z energy p.impactParameter rnd.angleR *
            (Real.pi / 180)) + (rnd.vyR - 0.5) * 0.2) := by
  refine ⟨fun h => ?_, fun h hnear => ?_, fun hd => ?_⟩
  · have hc : ¬ (p.hasReachedNucleus = false ∧ nearNucleus p) := by
      rw [h]; simp
    simp [updateParticlePosition, hc, h,
      apply_ite Particle.vx, apply_ite Particle.vy, apply_ite Particle.hasReachedNucleus]
  · have hc : ¬ (p.hasReachedNucleus = false ∧ nearNucleus p) := fun hcc => hnear hcc.2
    simp [updateParticlePosition, hc, h, hnear,
      apply_ite Particle.vx, apply_ite Particle.vy, apply_ite Particle.hasReachedNucleus]
  · have hc : p.hasReachedNucleus = false ∧ nearNucleus p := hd
    simp [updateParticlePosition, hc,
      apply_ite Particle.vx, apply_ite Particle.vy, apply_ite Particle.hasReachedNucleus]

theorem c6_velocity_once_witness :
    (updateParticlePosition 79 5 false ⟨0.5, 0.5, 0.5⟩ ⟨0, 0, 1, 0, 5, true, []⟩ initHist).1.vx
      = 1 :=
  ((c6_velocity_once 79 5 false ⟨0.5, 0.5, 0.5⟩ ⟨0, 0, 1, 0, 5, true, []⟩ initHist).1 rfl).2.1

/-! ### C7: the spawn condition -/

/-- C7: one spawn phase appends exactly one freshly created particle and
bumps the emitted counter by one precisely when
`elapsed > counter·EMISSION_INTERVAL ∧ length < MAX_PARTICLES ∧ running`;
in particular a full population (`MAX_PARTICLES ≤ length`) blocks
spawning even when the pacing condition holds. -/
theorem c7_spawner (u elapsed : ℝ) (s : SimState) :
    (spawnCond elapsed s →
      spawnStep u elapsed s = (s.particles ++ [createParticle u], s.counter + 1) ∧
      (spawnStep u elapsed s).1.length = s.particles.length + 1) ∧
    (¬ spawnCond elapsed s → spawnStep u elapsed s = (s.particles, s.counter)) ∧
    (MAX_PARTICLES ≤ s.particles.length → spawnStep u elapsed s = (s.particles, s.counter)) := by
  refine ⟨fun h => ?_, fun h => ?_, fun h => ?_⟩
  · simp only [spawnStep, if_pos h]
    simp
  · simp only [spawnStep, if_neg h]
  · have hno : ¬ spawnCond elapsed s := fun hc => absurd hc.2.1 (not_lt.mpr h)
    simp only [spawnStep, if_neg hno]

theorem c7_spawner_witness : spawnStep 0.5 0 initState = (initState.particles, initState.counter) :=
  (c7_spawner 0.5 0 initState).2.1
    (fun h => absurd h.2.2 (by simp [initState]))

/-! ### C8: reset -/

/-- C8: after a reset the simulation is stopped, the particle store is
empty, the emitted counter is zero, the time origin is cleared and every
registered histogram bin holds zero. -/
theorem c8_reset (s : SimState) :
    (resetState s).running = false ∧ (resetState s).particles = [] ∧
    (resetState s).counter = 0 ∧ (resetState s).startTime = none ∧
    ∀ k, isBinKey k → (resetState s).hist k = some 0 := by
  refine ⟨rfl, rfl, rfl, rfl, fun k hk => ?_⟩
  show initHist k = some 0
  exact if_pos hk

theorem c8_reset_witness :
    (resetState { running := true, counter := 7, particles := [], hist := (fun _ => some 5),
                  startTime := some 3, deflections := 4, recorded := 4 }).counter = 0 ∧
    (resetState { running := true, counter := 7, particles := [], hist := (fun _ => some 5),
                  startTime := some 3, deflections := 4, recorded := 4 }).hist 170 = some 0 :=
  ⟨(c8_reset _).2.2.1, (c8_reset _).2.2.2.2 170 ⟨by norm_num, by norm_num⟩⟩

/-! ### Histogram invariants along reachable states -/

theorem recordAngle_isSome (hist : Hist) (a : ℝ) (k : ℕ) :
    ((recordAngle hist a) k).isSome = (hist k).isSome := by
  rcases h : hist (binKey a) with - | v
  · simp only [recordAngle, h]
  · simp only [recordAngle, h]
    by_cases hk : k = binKey a
    · subst hk
      simp [Function.update_same, h]
    · rw [Function.update_noteq hk]

theorem keysEq_recordAngle (hist : Hist) (a : ℝ) (h : keysEq hist) :
    keysEq (recordAngle hist a) := by
  intro k
  rw [recordAngle_isSome]
  exact h k

theorem histSum_initHist : histSum initHist = 0 := by
  unfold histSum
  apply Finset.sum_eq_zero
  intro i hi
  rw [Finset.mem_range] at hi
  have h : 10 * i < 180 ∧ 10 * i % 10 = 0 := by omega
  simp [initHist, h]

theorem histSum_recordAngle (hist : Hist) (a : ℝ) (h : keysEq hist) :
    histSum (recordAngle hist a) =
      histSum hist + (if (hist (binKey a)).isSome = true then 1 else 0) := by
  rcases hsome : hist (binKey a) with - | v
  · simp [recordAngle, hsome]
  · simp only [recordAngle, hsome, Option.isSome_some, if_true]
    have hreg : isBinKey (binKey a) := (h _).1 (by rw [hsome]; rfl)
    obtain ⟨hlt, hmod⟩ := hreg
    have hk10 : binKey a = 10 * (binKey a / 10) := by omega
    have hi18 : binKey a / 10 < 18 := by omega
    have hmem : binKey a / 10 ∈ Finset.range 18 := Finset.mem_range.mpr hi18
    have hterm : ∀ j, ((Function.update hist (binKey a) (some (v + 1))) (10 * j)).getD 0 =
        (hist (10 * j)).getD 0 + (if 10 * j = binKey a then 1 else 0) := by
      intro j
      by_cases hj : 10 * j = binKey a
      · rw [hj]
        simp [Function.update_same, hsome]
      · rw [Function.update_noteq hj, if_neg hj]
        omega
    unfold histSum
    simp only [hterm]
    rw [Finset.sum_add_distrib]
    have hT : (∑ x ∈ Finset.range 18, if 10 * x = binKey a then 1 else 0) = 1 := by
      rw [Finset.sum_eq_single (binKey a / 10)]
      · simp [← hk10]
      · intro b hb hbne
        rw [if_neg]
        omega
      · intro habs
        exact absurd hmem habs
    rw [hT]

/-- The updated histogram of one particle update, in closed form. -/
theorem update_hist (Z energy : ℝ) (sp : Bool) (rnd : PRand) (p : Particle) (hist : Hist) :
    (updateParticlePosition Z energy sp rnd p hist).2.1 =
      if deflectsNow p then
        recordAngle hist (calculateTrajectory Z energy p.impactParameter rnd.angleR)
      else hist := by
  by_cases hd : deflectsNow p
  · rw [if_pos hd]
    have hc : p.hasReachedNucleus = false ∧ nearNucleus p := hd
    simp [updateParticlePosition, hc]
  · rw [if_neg hd]
    have hc : ¬ (p.hasReachedNucleus = false ∧ nearNucleus p) := hd
    simp [updateParticlePosition, hc]

/-- Over one full `filter` pass the histogram keeps its key set, and its
total count grows by exactly the number of deflections that hit a defined
key. -/
theorem advance_inv (Z energy : ℝ) (sp : Bool) (rands : ℕ → PRand) :
    ∀ (ps : List Particle) (i : ℕ) (hist : Hist), keysEq hist →
      keysEq (advanceFrom Z energy sp rands i ps hist).2 ∧
      histSum (advanceFrom Z energy sp rands i ps hist).2 =
        histSum hist + (advanceCounts Z energy sp rands i ps hist).2 := by
  intro ps
  induction ps with
  | nil =>
    intro i hist h
    exact ⟨h, by simp [advanceFrom, advanceCounts]⟩
  | cons p ps ih =>
    intro i hist h
    have hh := update_hist Z energy sp (rands i) p hist
    have hk1 : keysEq (updateParticlePosition Z energy sp (rands i) p hist).2.1 := by
      rw [hh]
      split
      · exact keysEq_recordAngle _ _ h
      · exact h
    have hsum1 : histSum (updateParticlePosition Z energy sp (rands i) p hist).2.1 =
        histSum hist +
          (if deflectsNow p ∧
              (hist (binKey (calculateTrajectory Z energy p.impactParameter
                (rands i).angleR))).isSome = true then 1 else 0) := by
      rw [hh]
      by_cases hd : deflectsNow p
      · rw [if_pos hd, histSum_recordAngle _ _ h]
        simp [hd]
      · rw [if_neg hd]
        simp [hd]
    obtain ⟨ihk, ihs⟩ := ih (i + 1) _ hk1
    constructor
    · simpa [advanceFrom] using ihk
    · simp only [advanceFrom, advanceCounts]
      rw [ihs, hsum1]
      omega

/-- Every reachable state has exactly the 18 registered keys defined, and
its histogram total equals the ghost count of recorded deflections. -/
theorem hist_invariant {s : SimState} (h : Reachable s) :
    keysEq s.hist ∧ histSum s.hist = s.recorded := by
  induction h with
  | init => exact ⟨keysEq_initHist, histSum_initHist⟩
  | @step s₀ t₀ hr hstep ih =>
    cases hstep with
    | toggle =>
      unfold toggleSim
      split
      · exact ih
      · exact ih
    | reset => exact ⟨keysEq_initHist, histSum_initHist⟩
    | tick Z energy sp o hZ hE ho hrun =>
      obtain ⟨hk, hs⟩ := ih
      have h2 := advance_inv Z energy sp o.rands
        (spawnStep o.spawnU (o.timestamp - s₀.startTime.getD o.timestamp) s₀).1 0 s₀.hist hk
      refine ⟨?_, ?_⟩
      · simpa [tick] using h2.1
      · show histSum (tick Z energy sp o s₀).hist = (tick Z energy sp o s₀).recorded
        simp only [tick]
        rw [h2.2, hs]

/-! ### C10: the key set of the histogram -/

/-- C10: in every reachable state the histogram's defined keys are exactly
`0, 10, ..., 170`: initialization and reset build precisely these 18 keys
and recording never adds one, because the increment is guarded on the key
already being defined. -/
theorem c10_registered_keys (s : SimState) (h : Reachable s) :
    ∀ k, (s.hist k).isSome = true ↔ isBinKey k :=
  (hist_invariant h).1

theorem c10_registered_keys_witness :
    ((initState.hist 20).isSome = true ↔ isBinKey 20) ∧
    ((initState.hist 25).isSome = true ↔ isBinKey 25) :=
  ⟨c10_registered_keys initState Reachable.init 20,
   c10_registered_keys initState Reachable.init 25⟩

/-! ### C3: histogram total versus deflection count -/

/-- C3 amended: in every reachable state the histogram total equals the
number of deflection transitions whose bin key was a defined key (angles
of 180° or more, which the random factor can produce, are dropped). -/
theorem c3_hist_sum_amended (s : SimState) (h : Reachable s) :
    histSum s.hist = s.recorded :=
  (hist_invariant h).2

theorem c3_hist_sum_amended_witness : histSum initState.hist = initState.recorded :=
  c3_hist_sum_amended initState Reachable.init

/-! #### A concrete reachable run violating C3 as stated -/

theorem toggle_init : toggleSim initState =
    { running := true, counter := 0, particles := [], hist := initHist,
      startTime := none, deflections := 0, recorded := 0 } := by
  simp [toggleSim, initState]

/-- One frame with the time origin unset and no spawn. -/
theorem tick_none_eval (Z energy : ℝ) (sp : Bool) (o : Oracle) (s : SimState)
    (hst : s.startTime = none) (hns : ¬ spawnCond (o.timestamp - o.timestamp) s) :
    tick Z energy sp o s =
      { running := s.running, counter := s.counter,
        particles := (advanceFrom Z energy sp o.rands 0 s.particles s.hist).1,
        hist := (advanceFrom Z energy sp o.rands 0 s.particles s.hist).2,
        startTime := some o.timestamp,
        deflections := s.deflections + (advanceCounts Z energy sp o.rands 0 s.particles s.hist).1,
        recorded := s.recorded + (advanceCounts Z energy sp o.rands 0 s.particles s.hist).2 } := by
  simp only [tick, hst, Option.getD_none, spawnStep, if_neg hns]

/-- One frame with the time origin set and no spawn. -/
theorem tick_no_spawn_eval (Z energy : ℝ) (sp : Bool) (o : Oracle) (s : SimState) (st0 : ℝ)
    (hst : s.startTime = some st0) (hns : ¬ spawnCond (o.timestamp - st0) s) :
    tick Z energy sp o s =
      { running := s.running, counter := s.counter,
        particles := (advanceFrom Z energy sp o.rands 0 s.particles s.hist).1,
        hist := (advanceFrom Z energy sp o.rands 0 s.particles s.hist).2,
        startTime := some st0,
        deflections := s.deflections + (advanceCounts Z energy sp o.rands 0 s.particles s.hist).1,
        recorded := s.recorded + (advanceCounts Z energy sp o.rands 0 s.particles s.hist).2 } := by
  simp only [tick, hst, Option.getD_some, spawnStep, if_neg hns]

/-- One frame with the time origin set and a spawn. -/
theorem tick_spawn_eval (Z energy : ℝ) (sp : Bool) (o : Oracle) (s : SimState) (st0 : ℝ)
    (hst : s.startTime = some st0) (hsp : spawnCond (o.timestamp - st0) s) :
    tick Z energy sp o s =
      { running := s.running, counter := s.counter + 1,
        particles := (advanceFrom Z energy sp o.rands 0
          (s.particles ++ [createParticle o.spawnU]) s.hist).1,
        hist := (advanceFrom Z energy sp o.rands 0
          (s.particles ++ [createParticle o.spawnU]) s.hist).2,
        startTime := some st0,
        deflections := s.deflections + (advanceCounts Z energy sp o.rands 0
          (s.particles ++ [createParticle o.spawnU]) s.hist).1,
        recorded := s.recorded + (advanceCounts Z energy sp o.rands 0
          (s.particles ++ [createParticle o.spawnU]) s.hist).2 } := by
  simp only [tick, hst, Option.getD_some, spawnStep, if_pos hsp]

theorem not_nearNucleus {p : Particle}
    (h : 225 < (p.x - WIDTH / 2) ^ 2 + (p.y - HEIGHT / 2) ^ 2) : ¬ nearNucleus p := by
  intro hle
  rw [nearNucleus, NUCLEUS_RADIUS] at hle
  have h15 : (15 : ℝ) < Real.sqrt ((p.x - WIDTH / 2) ^ 2 + (p.y - HEIGHT / 2) ^ 2) := by
    rw [Real.lt_sqrt (by norm_num)]
    norm_num
    exact h
  norm_num at hle
  linarith

theorem nearNucleus_of {p : Particle}
    (h : (p.x - WIDTH / 2) ^ 2 + (p.y - HEIGHT / 2) ^ 2 ≤ 225) : nearNucleus p := by
  rw [nearNucleus, NUCLEUS_RADIUS]
  norm_num
  rw [show (15 : ℝ) = Real.sqrt 225 by
    rw [show (225 : ℝ) = 15 ^ 2 by norm_num, Real.sqrt_sq (by norm_num)]]
  exact Real.sqrt_le_sqrt h

/-- A single in-flight particle away from the nucleus just moves. -/
theorem advance_one_no_deflect (Z energy : ℝ) (rands : ℕ → PRand) (p : Particle) (hist : Hist)
    (hnear : ¬ nearNucleus p)
    (hin : ¬ (p.x + p.vx < 0 ∨ p.x + p.vx > WIDTH ∨ p.y + p.vy < 0 ∨ p.y + p.vy > HEIGHT)) :
    advanceFrom Z energy false rands 0 [p] hist =
      ([{ p with x := p.x + p.vx, y := p.y + p.vy }], hist) ∧
    advanceCounts Z energy false rands 0 [p] hist = (0, 0) := by
  have hc : ¬ (p.hasReachedNucleus = false ∧ nearNucleus p) := fun h => hnear h.2
  constructor
  · simp [advanceFrom, updateParticlePosition, hc, hin]
  · simp [advanceCounts, deflectsNow, hc, updateParticlePosition]

/-- A single undeflected particle near the nucleus triggers exactly one
deflection; the histogram receives the computed angle. -/
theorem advance_one_deflect (Z energy : ℝ) (rands : ℕ → PRand) (p : Particle) (hist : Hist)
    (hflag : p.hasReachedNucleus = false) (hnear : nearNucleus p) :
    (advanceFrom Z energy false rands 0 [p] hist).2 =
      recordAngle hist (calculateTrajectory Z energy p.impactParameter (rands 0).angleR) ∧
    advanceCounts Z energy false rands 0 [p] hist =
      (1, if (hist (binKey (calculateTrajectory Z energy p.impactParameter
        (rands 0).angleR))).isSome = true then 1 else 0) := by
  have hc : p.hasReachedNucleus = false ∧ nearNucleus p := ⟨hflag, hnear⟩
  constructor
  · simp [advanceFrom, updateParticlePosition, hc]
  · simp [advanceCounts, deflectsNow, hc, updateParticlePosition]

theorem createParticle_eval : createParticle 0.500005 =
    { x := 0, y := 200.001, vx := 1.5, vy := 0, impactParameter := 0.001,
      hasReachedNucleus := false, path := [(0, 200.001)] } := by
  simp only [createParticle, HEIGHT]
  norm_num

theorem cexStart_eq : cexTick 0 (toggleSim initState) =
    { running := true, counter := 0, particles := [], hist := initHist,
      startTime := some 0, deflections := 0, recorded := 0 } := by
  rw [toggle_init]
  have hns : ¬ spawnCond ((cexOracle 0).timestamp - (cexOracle 0).timestamp)
      { running := true, counter := 0, particles := [], hist := initHist,
        startTime := none, deflections := 0, recorded := (0 : ℕ) } := by
    intro hcc
    have h1 := hcc.1
    simp [cexOracle, EMISSION_INTERVAL] at h1
  have heval := tick_none_eval 92 10 false (cexOracle 0) _ rfl hns
  simp only [cexTick]
  rw [heval]
  simp [advanceFrom, advanceCounts, cexOracle]

theorem cexRun_zero : cexRun 0 = cexMid 0 := by
  show cexTick 50 (cexTick 0 (toggleSim initState)) = cexMid 0
  rw [cexStart_eq]
  have hsp : spawnCond ((cexOracle 50).timestamp - 0)
      { running := true, counter := 0, particles := [], hist := initHist,
        startTime := some 0, deflections := 0, recorded := (0 : ℕ) } := by
    refine ⟨?_, ?_, rfl⟩
    · simp [cexOracle, EMISSION_INTERVAL]
    · simp [MAX_PARTICLES]
  have heval := tick_spawn_eval 92 10 false (cexOracle 50) _ 0 rfl hsp
  simp only [cexTick]
  rw [heval]
  simp only [List.nil_append]
  have hcu : createParticle (cexOracle 50).spawnU =
      { x := 0, y := 200.001, vx := 1.5, vy := 0, impactParameter := 0.001,
        hasReachedNucleus := false, path := [(0, 200.001)] } := by
    rw [show (cexOracle 50).spawnU = 0.500005 from rfl, createParticle_eval]
  rw [hcu]
  have hfar : ¬ nearNucleus
      { x := 0, y := 200.001, vx := 1.5, vy := 0, impactParameter := (0.001 : ℝ),
        hasReachedNucleus := false, path := [((0 : ℝ), (200.001 : ℝ))] } := by
    apply not_nearNucleus
    simp only [WIDTH, HEIGHT]
    norm_num
  have hin : ¬ ((0 : ℝ) + 1.5 < 0 ∨ (0 : ℝ) + 1.5 > WIDTH ∨
      (200.001 : ℝ) + 0 < 0 ∨ (200.001 : ℝ) + 0 > HEIGHT) := by
    simp only [WIDTH, HEIGHT]
    norm_num
  have hadv := advance_one_no_deflect 92 10 (cexOracle 50).rands _ initHist hfar hin
  rw [hadv.1, hadv.2]
  simp [cexMid, cexParticle]

theorem cexMid_step (k : ℕ) (t : ℝ) (hk : (k : ℝ) ≤ 189) (ht : t ≤ 100) :
    cexTick t (cexMid k) = cexMid (k + 1) := by
  have h0 : (0 : ℝ) ≤ (k : ℝ) := Nat.cast_nonneg k
  have hns : ¬ spawnCond (t - 0) (cexMid k) := by
    intro hcc
    have h1 := hcc.1
    simp only [cexMid, EMISSION_INTERVAL, Nat.cast_one] at h1
    linarith
  have heval := tick_no_spawn_eval 92 10 false (cexOracle t) (cexMid k) 0 rfl hns
  simp only [cexTick]
  rw [heval]
  have hfar : ¬ nearNucleus (cexParticle k) := by
    apply not_nearNucleus
    simp only [cexParticle, WIDTH, HEIGHT]
    nlinarith [mul_nonneg (show (0 : ℝ) ≤ 283.5 - 1.5 * (k : ℝ) by linarith)
      (show (0 : ℝ) ≤ 313.5 - 1.5 * (k : ℝ) by linarith)]
  have hin : ¬ ((cexParticle k).x + (cexParticle k).vx < 0 ∨
      (cexParticle k).x + (cexParticle k).vx > WIDTH ∨
      (cexParticle k).y + (cexParticle k).vy < 0 ∨
      (cexParticle k).y + (cexParticle k).vy > HEIGHT) := by
    simp only [cexParticle, WIDTH, HEIGHT]
    push_neg
    refine ⟨by linarith, by linarith, by norm_num, by norm_num⟩
  have hadv := advance_one_no_deflect 92 10 (cexOracle t).rands (cexParticle k) initHist hfar hin
  simp only [cexMid]
  rw [hadv.1, hadv.2]
  simp only [cexParticle, SimState.mk.injEq, List.cons.injEq, Particle.mk.injEq, and_true,
    true_and]
  constructor
  · push_cast
    ring
  · norm_num

theorem cexRun_eq (n : ℕ) (hn : n ≤ 190) : cexRun n = cexMid n := by
  induction n with
  | zero => exact cexRun_zero
  | succ k ih =>
    have hk189 : (k : ℝ) ≤ 189 := by
      exact_mod_cast (show k ≤ 189 by omega)
    rw [show cexRun (k + 1) = cexTick (50 + ((k : ℝ) + 1) / 4) (cexRun k) from rfl]
    rw [ih (by omega)]
    exact cexMid_step k _ hk189 (by linarith)

theorem cexTick_running (t : ℝ) (s : SimState) : (cexTick t s).running = s.running := rfl

theorem cexRun_running (n : ℕ) : (cexRun n).running = true := by
  induction n with
  | zero =>
    rw [cexRun_zero]
    rfl
  | succ k ih =>
    rw [show cexRun (k + 1) = cexTick (50 + ((k : ℝ) + 1) / 4) (cexRun k) from rfl,
      cexTick_running]
    exact ih

theorem cexOracle_valid (t : ℝ) (ht : 0 ≤ t) : ValidOracle (cexOracle t) :=
  ⟨ht, by norm_num [cexOracle], by norm_num [cexOracle], fun i => by norm_num [cexOracle]⟩

theorem cexRun_reachable (n : ℕ) : Reachable (cexRun n) := by
  have r0 : Reachable initState := Reachable.init
  have r1 : Reachable (toggleSim initState) := Reachable.step r0 (Step.toggle _)
  have hrun1 : (toggleSim initState).running = true := by rw [toggle_init]
  have r2 : Reachable (cexTick 0 (toggleSim initState)) :=
    Reachable.step r1 (Step.tick _ 92 10 false (cexOracle 0)
      ⟨by norm_num, by norm_num⟩ ⟨by norm_num, by norm_num⟩
      (cexOracle_valid 0 le_rfl) hrun1)
  have hrun2 : (cexTick 0 (toggleSim initState)).running = true := by rw [cexStart_eq]
  induction n with
  | zero =>
    exact Reachable.step r2 (Step.tick _ 92 10 false (cexOracle 50)
      ⟨by norm_num, by norm_num⟩ ⟨by norm_num, by norm_num⟩
      (cexOracle_valid 50 (by norm_num)) hrun2)
  | succ k ih =>
    exact Reachable.step ih (Step.tick _ 92 10 false (cexOracle (50 + ((k : ℝ) + 1) / 4))
      ⟨by norm_num, by norm_num⟩ ⟨by norm_num, by norm_num⟩
      (cexOracle_valid _ (by positivity)) (cexRun_running k))

theorem cex_tanHalf : tanHalfTheta 92 10 0.001 = 264.96 := by
  rw [tanHalfTheta, abs_of_pos (by norm_num : (0 : ℝ) < 0.001)]
  norm_num

/-- With `Z = 92`, `E = 10`, `b = 0.001` and random draw `0.75` (factor
`1.05`), the computed deflection angle is at least `180` degrees. -/
theorem cex_angle_ge : (180 : ℝ) ≤ calculateTrajectory 92 10 0.001 0.75 := by
  rw [traj_pos_rep 92 10 0.001 0.75 (by norm_num), cex_tanHalf]
  have hpi3 : (3.14 : ℝ) < Real.pi := Real.pi_gt_d2
  have hpipos : (0 : ℝ) < Real.pi := Real.pi_pos
  have hinv : Real.arctan (264.96 : ℝ)⁻¹ = Real.pi / 2 - Real.arctan 264.96 :=
    Real.arctan_inv_of_pos (by norm_num)
  have hsmall : Real.arctan (264.96 : ℝ)⁻¹ ≤ (264.96 : ℝ)⁻¹ := arctan_le_self (by norm_num)
  have hlb : Real.pi / 2 - (264.96 : ℝ)⁻¹ ≤ Real.arctan 264.96 := by
    rw [hinv] at hsmall
    linarith
  have hc : ((264.96 : ℝ))⁻¹ ≤ 0.004 := by norm_num
  rw [← mul_div_assoc, le_div_iff₀ hpipos]
  nlinarith

theorem cex_binKey_ge : 180 ≤ binKey (calculateTrajectory 92 10 0.001 0.75) := by
  have h := cex_angle_ge
  rw [binKey, abs_of_nonneg (by linarith : (0 : ℝ) ≤ calculateTrajectory 92 10 0.001 0.75)]
  have hfl : (18 : ℤ) ≤ ⌊calculateTrajectory 92 10 0.001 0.75 / 10⌋ := by
    rw [Int.le_floor]
    rw [le_div_iff₀ (by norm_num : (0 : ℝ) < 10)]
    push_cast
    linarith
  omega

theorem initHist_none {k : ℕ} (hk : 180 ≤ k) : initHist k = none := by
  rw [initHist]
  rw [if_neg (by omega : ¬ (k < 180 ∧ k % 10 = 0))]

/-- C3 as stated is false on the code: `cexState` is reachable (start,
one frame at `t = 0`, a spawning frame at `t = 50` whose particle has
impact parameter `0.001`, then 191 quiet frames until the particle reaches
the nucleus), one particle has undergone the deflection transition, yet
every histogram bin is zero — its angle exceeded `180°` and the update of
lines 81-84 dropped it. -/
theorem c3_counterexample :
    Reachable cexState ∧ histSum cexState.hist = 0 ∧ cexState.deflections = 1 := by
  have e : cexState = cexTick (50 + (((190 : ℕ) : ℝ) + 1) / 4) (cexMid 190) := by
    rw [show cexState = cexRun 191 from rfl]
    rw [show cexRun 191 = cexTick (50 + (((190 : ℕ) : ℝ) + 1) / 4) (cexRun 190) from rfl]
    rw [cexRun_eq 190 le_rfl]
  have hns : ¬ spawnCond ((50 + (((190 : ℕ) : ℝ) + 1) / 4) - 0) (cexMid 190) := by
    intro hcc
    have h1 := hcc.1
    simp only [cexMid, EMISSION_INTERVAL, Nat.cast_one] at h1
    norm_num at h1
  have heval := tick_no_spawn_eval 92 10 false (cexOracle (50 + (((190 : ℕ) : ℝ) + 1) / 4))
    (cexMid 190) 0 rfl hns
  have hnear : nearNucleus (cexParticle 190) := by
    apply nearNucleus_of
    simp only [cexParticle, WIDTH, HEIGHT]
    push_cast
    norm_num
  have hadv := advance_one_deflect 92 10 (cexOracle (50 + (((190 : ℕ) : ℝ) + 1) / 4)).rands
    (cexParticle 190) initHist rfl hnear
  have hargs : calculateTrajectory 92 10 (cexParticle 190).impactParameter
      ((cexOracle (50 + (((190 : ℕ) : ℝ) + 1) / 4)).rands 0).angleR =
      calculateTrajectory 92 10 0.001 0.75 := rfl
  have hnone : initHist (binKey (calculateTrajectory 92 10 0.001 0.75)) = none :=
    initHist_none cex_binKey_ge
  have hrec : recordAngle initHist (calculateTrajectory 92 10 0.001 0.75) = initHist := by
    simp only [recordAngle, hnone]
  refine ⟨cexRun_reachable 191, ?_, ?_⟩
  · rw [e]
    simp only [cexTick]
    rw [heval]
    simp only [cexMid]
    rw [hadv.1, hargs, hrec]
    exact histSum_initHist
  · rw [e]
    simp only [cexTick]
    rw [heval]
    simp only [cexMid]
    rw [hadv.2]
    simp

end Rutherford
